import Mathlib

/-!
Verification of the LLM access gateway of this repository against its
natural-language specification.

The definitions below are a shallow embedding of the Go sources:

  * `src/copilot-client/pkg/utils/rate_limiter.go` — token-bucket rate limiter,
  * `src/unknown-go-app/internal/app/app.go` — authorization pipeline
    (country / model / spend / rate checks), JWT issuance and validation,
    the model catalog and configuration,
  * `src/copilot-proxy/internal/llm/service.go` — usage tracking service and
    `PerformCompletion`.

Machine integers are modelled as `Int` (with the explicit truncated division
`Int.tdiv` / `Int.tmod`, which matches Go's `/` and `%` on integers) where
negative values are representable, and as `Nat` where the source only ever
holds non-negative counters.  `time.Time` and `time.Duration` values are
modelled as `Int` nanosecond counts, except for JWT claims where the source
itself works with Unix seconds.  Fallible functions return `Except`/`Option`;
a Go runtime panic (integer division by zero) is modelled as `Option.none`.
-/

/-! ## Token-bucket rate limiter (src/copilot-client/pkg/utils/rate_limiter.go) -/

/-- `BasicRateLimit` from rate_limiter.go: capacity (Go `int`),
refill duration (Go `time.Duration`, nanoseconds) and a bucket name. -/
structure BasicRateLimit where
  capacity : Int
  refillDuration : Int
  dbName : String
  deriving DecidableEq, Repr

/-- `NewBasicRateLimit` from rate_limiter.go: constructs the record as given,
performing no validation of any field. -/
def newBasicRateLimit (capacity : Int) (refillDuration : Int) (dbName : String) :
    BasicRateLimit :=
  { capacity := capacity, refillDuration := refillDuration, dbName := dbName }

/-- `RateBucket` from rate_limiter.go. -/
structure RateBucket where
  capacity : Int
  tokenCount : Int
  refillTimePerToken : Int
  lastRefill : Int
  deriving DecidableEq, Repr

/-- `RateBucket.Refill` from rate_limiter.go: lazy refill on access.
`elapsed / rb.refillTimePerToken` and `elapsed % rb.refillTimePerToken` are
Go integer division/remainder, i.e. `Int.tdiv` / `Int.tmod` (truncation
toward zero, remainder takes the sign of the dividend). -/
def RateBucket.refill (rb : RateBucket) (now : Int) : RateBucket :=
  let elapsed := now - rb.lastRefill
  if elapsed ≥ rb.refillTimePerToken then
    let newTokens := Int.tdiv elapsed rb.refillTimePerToken
    let tokenCount :=
      if rb.tokenCount + newTokens > rb.capacity then rb.capacity
      else rb.tokenCount + newTokens
    let unusedTime := Int.tmod elapsed rb.refillTimePerToken
    { rb with tokenCount := tokenCount, lastRefill := now - unusedTime }
  else
    rb

/-- `RateBucket.Allow` from rate_limiter.go: refill, then admit and decrement
iff a token is available.  Returns the admission decision and the updated
bucket (the Go method mutates the receiver). -/
def RateBucket.allow (rb : RateBucket) (now : Int) : Bool × RateBucket :=
  let rb := rb.refill now
  if rb.tokenCount > 0 then
    (true, { rb with tokenCount := rb.tokenCount - 1 })
  else
    (false, rb)

/-- `RateLimiter` from rate_limiter.go.  The Go maps keyed by the string
`fmt.Sprintf("%d:%s", userID, limitName)` are modelled as maps keyed by the
pair `(userID, limitName)`; the format is injective because the decimal
digits of the user id contain no colon, so the first colon delimits the
fields. -/
structure RateLimiter where
  buckets : Nat × String → Option RateBucket
  dirtyBuckets : Nat × String → Bool

/-- `NewRateLimiter` from rate_limiter.go. -/
def newRateLimiter : RateLimiter :=
  { buckets := fun _ => none, dirtyBuckets := fun _ => false }

/-- The bucket that `RateLimiter.Check` creates on first access for a limit:
full token count and `refillTimePerToken = RefillDuration() / Capacity()`
(Go integer division of durations). -/
def freshBucket (limit : BasicRateLimit) (now : Int) : RateBucket :=
  { capacity := limit.capacity
    tokenCount := limit.capacity
    refillTimePerToken := Int.tdiv limit.refillDuration limit.capacity
    lastRefill := now }

/-- `RateLimiter.Check` from rate_limiter.go: look up or lazily create the
bucket for `(userID, limit.DBName())`, mark it dirty, and run `Allow`.
When the bucket does not exist yet and `limit.Capacity() = 0`, the Go code
panics with an integer division by zero while computing
`limit.RefillDuration() / time.Duration(limit.Capacity())`; the panic is
modelled as `none`. -/
def RateLimiter.check (rl : RateLimiter) (limit : BasicRateLimit) (userID : Nat)
    (now : Int) : Option (Bool × RateLimiter) :=
  let bucketKey := (userID, limit.dbName)
  match rl.buckets bucketKey with
  | some bucket =>
      let (ok, bucket') := bucket.allow now
      some (ok,
        { buckets := fun k => if k = bucketKey then some bucket' else rl.buckets k
          dirtyBuckets := fun k => if k = bucketKey then true else rl.dirtyBuckets k })
  | none =>
      if limit.capacity = 0 then
        none
      else
        let (ok, bucket') := (freshBucket limit now).allow now
        some (ok,
          { buckets := fun k => if k = bucketKey then some bucket' else rl.buckets k
            dirtyBuckets := fun k => if k = bucketKey then true else rl.dirtyBuckets k })

/-! ### Drivers used to state the bucket claims

These are not part of the source; they replay sequences of `Allow` calls so
that properties about call sequences can be stated. -/

/-- Replay a list of timestamps through `RateBucket.allow`, returning the
number of admitted calls and the final bucket. -/
def RateBucket.allowRun : RateBucket → List Int → Nat × RateBucket
  | rb, [] => (0, rb)
  | rb, t :: ts =>
      let (ok, rb₁) := rb.allow t
      let (n, rbf) := rb₁.allowRun ts
      ((if ok then 1 else 0) + n, rbf)

/-- Timestamps `l + p, l + 2p, ..., l + k·p`: one call at the end of each of
`k` consecutive refill periods of length `p`. -/
def periodicTimes (l p : Int) : Nat → List Int
  | 0 => []
  | k + 1 => (l + p) :: periodicTimes (l + p) p k

/-- Like `periodicTimes`, but with a second (duplicate) call at each period
boundary. -/
def periodicTimesTwice (l p : Int) : Nat → List Int
  | 0 => []
  | k + 1 => (l + p) :: (l + p) :: periodicTimesTwice (l + p) p k

/-! ## LLM gateway data model

The `copilot-proxy/pkg/models` package itself is not among the source files,
but every field and constant below is determined by its uses in
`app.go` / `service.go` (struct literals and field accesses).
`models.LanguageModelProvider` is a string type in Go; only the distinctness
of the four provider constants matters to the embedded code. -/

/-- `models.LanguageModelProvider`. -/
structure Provider where
  name : String
  deriving DecidableEq, Repr

/-- `models.ProviderCopilot`. -/
def providerCopilot : Provider := ⟨"copilot"⟩

/-- `models.ProviderOpenAI`. -/
def providerOpenAI : Provider := ⟨"openai"⟩

/-- `models.ProviderAnthropic`. -/
def providerAnthropic : Provider := ⟨"anthropic"⟩

/-- `models.ProviderGoogle`. -/
def providerGoogle : Provider := ⟨"google"⟩

/-- `models.LanguageModel`: a static catalog entry with its five ceilings. -/
structure LanguageModel where
  id : String
  name : String
  provider : Provider
  maxRequestsPerMinute : Nat
  maxTokensPerMinute : Nat
  maxInputTokensPerMinute : Nat
  maxOutputTokensPerMinute : Nat
  maxTokensPerDay : Nat
  enabled : Bool
  deriving DecidableEq, Repr

/-- `models.ModelUsage`: the per-user rolling counters. -/
structure ModelUsage where
  userID : Nat
  provider : Provider
  model : String
  requestsThisMinute : Nat
  tokensThisMinute : Nat
  inputTokensThisMinute : Nat
  outputTokensThisMinute : Nat
  tokensThisDay : Nat
  deriving DecidableEq, Repr

/-- `models.ActiveUserCount`. -/
structure ActiveUserCount where
  usersInRecentMinutes : Nat
  usersInRecentDays : Nat
  deriving DecidableEq, Repr

/-- `models.TokenUsage`: token counts observed for one call. -/
structure TokenUsage where
  input : Nat
  output : Nat
  deriving DecidableEq, Repr

/-- `models.LLMToken`: the verified access token handed to the pipeline.
Times are Unix seconds (`ValidateLLMToken` builds `AccountCreatedAt` with
`time.Unix(claims.AccountCreatedAt, 0)`, a whole-second time). -/
structure LLMToken where
  iat : Int
  exp : Int
  jti : String
  userID : Nat
  metricsID : String
  githubUserLogin : String
  accountCreatedAt : Int
  isStaff : Bool
  hasLLMSubscription : Bool
  maxMonthlySpendInCents : Nat
  customMonthlyAllowanceInCents : Option Nat
  deriving DecidableEq, Repr

/-- `llm.Config` (config.go).  The singleton `GetConfig` fills the API keys
from the environment and hardcodes `FreeTierMonthlyAllowance = 1000`; the
embedding passes the configuration explicitly. -/
structure Config where
  openAIAPIKey : String
  copilotAPIKey : String
  anthropicAPIKey : String
  anthropicStaffAPIKey : String
  googleAIAPIKey : String
  closedBetaModelName : String
  defaultMaxMonthlySpend : Nat
  freeTierMonthlyAllowance : Nat
  deriving DecidableEq, Repr

/-- `DefaultModels` from config.go: the static model catalog. -/
def defaultModels : List LanguageModel :=
  [ { id := "copilot-chat", name := "copilot-chat", provider := providerCopilot
      maxRequestsPerMinute := 25, maxTokensPerMinute := 5000
      maxInputTokensPerMinute := 2500, maxOutputTokensPerMinute := 2500
      maxTokensPerDay := 100000, enabled := true }
  , { id := "gpt-4", name := "gpt-4", provider := providerOpenAI
      maxRequestsPerMinute := 20, maxTokensPerMinute := 4000
      maxInputTokensPerMinute := 2000, maxOutputTokensPerMinute := 2000
      maxTokensPerDay := 80000, enabled := true }
  , { id := "claude-3-opus", name := "claude-3-opus", provider := providerAnthropic
      maxRequestsPerMinute := 15, maxTokensPerMinute := 3000
      maxInputTokensPerMinute := 1500, maxOutputTokensPerMinute := 1500
      maxTokensPerDay := 60000, enabled := true } ]

/-- The error taxonomy of the gateway (authorization.go, token.go,
service.go).  `rateLimitExceeded` carries the name of the counter that
tripped, as the Go code annotates `ErrRateLimitExceeded` with it. -/
inductive LLMError where
  | noCountryCode
  | torNetwork
  | restrictedRegion
  | modelNotAvailable
  | unknownModel
  | rateLimitExceeded (counter : String)
  | spendingLimitReached
  | tokenExpired
  | invalidToken
  | accountTooYoung
  | providerNotSupported
  | apiKeyNotConfigured (provider : String)
  deriving DecidableEq, Repr

/-! ## Authorization pipeline (authorization.go part of app.go) -/

/-- The TOR network sentinel country code. -/
def torNetwork : String := "T1"

/-- The export-restricted country denylist from authorization.go. -/
def restrictedCountries : List String :=
  ["AF", "BY", "CF", "CN", "CU", "ER", "ET", "IR", "KP", "XK",
   "LY", "MM", "RU", "SO", "SS", "SD", "SY", "VE", "YE"]

/-- `AuthorizeAccessForCountry`: nil or `"XX"` country means no country code;
the TOR sentinel and the denylist are checked in that order. -/
def authorizeAccessForCountry (countryCode : Option String) (provider : Provider) :
    Except LLMError Unit :=
  match countryCode, provider with
  | none, _ => .error .noCountryCode
  | some code, _ =>
      if code = "XX" then .error .noCountryCode
      else if code = torNetwork then .error .torNetwork
      else if restrictedCountries.contains code then .error .restrictedRegion
      else .ok ()

/-- `AuthorizeAccessToModel`: staff bypass; all Copilot models allowed; two
Anthropic sonnet models allowed to every plan; the configured closed-beta
model allowed; everything else is `ErrModelNotAvailable`. -/
def authorizeAccessToModel (config : Config) (token : LLMToken) (provider : Provider)
    (modelName : String) : Except LLMError Unit :=
  if token.isStaff then .ok ()
  else if provider = providerCopilot then .ok ()
  else if provider = providerAnthropic ∧
      (modelName = "claude-3-5-sonnet" ∨ modelName = "claude-3-7-sonnet") then .ok ()
  else if config.closedBetaModelName = modelName then .ok ()
  else .error .modelNotAvailable

/-- `CheckRateLimit`: find the catalog entry (first match wins, as the Go
loop breaks), clamp both active-user counts to at least 1, scale the five
ceilings by integer division, and fail on the first counter strictly above
its scaled ceiling. -/
def checkRateLimit (userID : Nat) (provider : Provider) (modelName : String)
    (usage : ModelUsage) (activeUsers : ActiveUserCount) : Except LLMError Unit :=
  match defaultModels.find? (fun m => m.provider == provider && m.name == modelName) with
  | none => .error .unknownModel
  | some model =>
      let usersInRecentMinutes :=
        if activeUsers.usersInRecentMinutes < 1 then 1 else activeUsers.usersInRecentMinutes
      let usersInRecentDays :=
        if activeUsers.usersInRecentDays < 1 then 1 else activeUsers.usersInRecentDays
      let perUserMaxRequestsPerMinute := model.maxRequestsPerMinute / usersInRecentMinutes
      let perUserMaxTokensPerMinute := model.maxTokensPerMinute / usersInRecentMinutes
      let perUserMaxInputTokensPerMinute := model.maxInputTokensPerMinute / usersInRecentMinutes
      let perUserMaxOutputTokensPerMinute := model.maxOutputTokensPerMinute / usersInRecentMinutes
      let perUserMaxTokensPerDay := model.maxTokensPerDay / usersInRecentDays
      if usage.requestsThisMinute > perUserMaxRequestsPerMinute then
        .error (.rateLimitExceeded "requests_per_minute")
      else if usage.tokensThisMinute > perUserMaxTokensPerMinute then
        .error (.rateLimitExceeded "tokens_per_minute")
      else if usage.inputTokensThisMinute > perUserMaxInputTokensPerMinute then
        .error (.rateLimitExceeded "input_tokens_per_minute")
      else if usage.outputTokensThisMinute > perUserMaxOutputTokensPerMinute then
        .error (.rateLimitExceeded "output_tokens_per_minute")
      else if usage.tokensThisDay > perUserMaxTokensPerDay then
        .error (.rateLimitExceeded "tokens_per_day")
      else .ok ()

/-- `CheckSpendingLimit`: staff bypass; free tier is the token's custom
allowance when present, else the configured default; past the free tier a
non-subscriber fails, a subscriber fails iff `spend - freeTier` reaches the
token's max monthly spend.  All amounts are `uint32` cents; the subtraction
is guarded by `currentSpending ≥ freeTier`, so `Nat` subtraction agrees. -/
def checkSpendingLimit (config : Config) (token : LLMToken) (currentSpending : Nat) :
    Except LLMError Unit :=
  if token.isStaff then .ok ()
  else
    let freeTier :=
      match token.customMonthlyAllowanceInCents with
      | some allowance => allowance
      | none => config.freeTierMonthlyAllowance
    if currentSpending ≥ freeTier then
      if ¬ token.hasLLMSubscription then .error .spendingLimitReached
      else
        let monthlySpend := currentSpending - freeTier
        if monthlySpend ≥ token.maxMonthlySpendInCents then .error .spendingLimitReached
        else .ok ()
    else .ok ()

/-- `ValidateAccess`: the fixed stage order with first-failure short
circuit — country, model/plan, spend, rate. -/
def validateAccess (config : Config) (token : LLMToken) (countryCode : Option String)
    (provider : Provider) (modelName : String) (usage : ModelUsage)
    (activeUsers : ActiveUserCount) (currentSpending : Nat) : Except LLMError Unit :=
  match authorizeAccessForCountry countryCode provider with
  | .error e => .error e
  | .ok _ =>
    match authorizeAccessToModel config token provider modelName with
    | .error e => .error e
    | .ok _ =>
      match checkSpendingLimit config token currentSpending with
      | .error e => .error e
      | .ok _ => checkRateLimit token.userID provider modelName usage activeUsers

/-! ## Access token issuance and validation (token.go part of app.go)

`CreateLLMToken` signs a `TokenClaims` with HMAC-SHA256
(`jwt.SigningMethodHS256` of github.com/golang-jwt/jwt/v4) and
`ValidateLLMToken` parses it back with the same symmetric secret.  The wire
string is modelled symbolically: `JWTTokenString.signed claims alg key`
stands for a structurally well-formed JWS whose header names `alg` and whose
MAC tag was produced with `key` over `claims`; MAC verification succeeds
exactly when the verifying key equals the signing key and the algorithm is
HS256 (the ideal-MAC abstraction of HMAC's unforgeability), and
`JWTTokenString.malformed` stands for any string that does not parse as a
JWS at all. -/

/-- The jwt/v4 signing algorithms as far as the code distinguishes them. -/
inductive JWTAlg where
  | hs256
  | other (alg : String)
  deriving DecidableEq, Repr

/-- `TokenClaims` from token.go (registered claims plus the custom fields).
`exp`/`iat`/`accountCreatedAt` are Unix seconds, as jwt/v4 `NumericDate`
values are marshalled with second precision. -/
structure TokenClaims where
  exp : Int
  iat : Int
  jti : String
  userID : Nat
  metricsID : String
  githubUserLogin : String
  accountCreatedAt : Int
  isStaff : Bool
  hasLLMSubscription : Bool
  maxMonthlySpendInCents : Nat
  customMonthlyAllowanceInCents : Option Nat
  deriving DecidableEq, Repr

/-- A token string, modelled symbolically (see the section comment). -/
inductive JWTTokenString where
  | malformed (raw : String)
  | signed (claims : TokenClaims) (alg : JWTAlg) (macKey : String)
  deriving DecidableEq, Repr

/-- `TokenLifetime` from token.go: 1 hour, in seconds. -/
def tokenLifetime : Int := 60 * 60

/-- `CreateLLMToken`: claims with `iat = now`, `exp = now + TokenLifetime`
and a fresh UUID (`NewUUID` reads the wall clock, so the id is passed in),
signed HS256 with the secret. -/
def createLLMToken (now : Int) (uuid : String) (userID : Nat) (metricsID : String)
    (githubLogin : String) (accountCreatedAt : Int) (isStaff : Bool)
    (hasSubscription : Bool) (maxMonthlySpend : Nat) (customAllowance : Option Nat)
    (secret : String) : JWTTokenString :=
  .signed
    { exp := now + tokenLifetime
      iat := now
      jti := uuid
      userID := userID
      metricsID := metricsID
      githubUserLogin := githubLogin
      accountCreatedAt := accountCreatedAt
      isStaff := isStaff
      hasLLMSubscription := hasSubscription
      maxMonthlySpendInCents := maxMonthlySpend
      customMonthlyAllowanceInCents := customAllowance }
    .hs256 secret

/-- `ValidateLLMToken`.  jwt/v4 `ParseWithClaims` accumulates validation
error bits: a string that does not parse is Malformed; otherwise
`RegisteredClaims.Valid` sets the Expired bit iff `now` is not before `exp`
(inclusive expiry) and the IssuedAt bit iff `now` is before `iat`
(`ErrTokenUsedBeforeIssued`), and HS256 verification with the byte secret
sets the SignatureInvalid bit on a key/algorithm mismatch.  The caller then
maps any error whose bits contain Expired to `ErrTokenExpired`
(`errors.Is(err, jwt.ErrTokenExpired)` matches on the bit) and every other
failure to `ErrInvalidToken`, so the expired report takes priority. -/
def validateLLMToken (tokenString : JWTTokenString) (secret : String) (now : Int) :
    Except LLMError LLMToken :=
  match tokenString with
  | .malformed _ => .error .invalidToken
  | .signed claims alg macKey =>
      if claims.exp ≤ now then .error .tokenExpired
      else if now < claims.iat ∨ ¬ (alg = .hs256 ∧ macKey = secret) then
        .error .invalidToken
      else
        .ok
          { iat := claims.iat
            exp := claims.exp
            jti := claims.jti
            userID := claims.userID
            metricsID := claims.metricsID
            githubUserLogin := claims.githubUserLogin
            accountCreatedAt := claims.accountCreatedAt
            isStaff := claims.isStaff
            hasLLMSubscription := claims.hasLLMSubscription
            maxMonthlySpendInCents := claims.maxMonthlySpendInCents
            customMonthlyAllowanceInCents := claims.customMonthlyAllowanceInCents }

/-! ## Usage tracking service and completion pipeline
(src/copilot-proxy/internal/llm/service.go) -/

/-- `llm.Service` (service.go).  The Go maps are modelled as functions; the
`activeUsers` key `fmt.Sprintf("%s:%s", provider, model)` is modelled as the
pair, the format being injective for the fixed provider constants. -/
structure Service where
  userUsage : Nat → Option ModelUsage
  activeUsers : Provider × String → Option ActiveUserCount

/-- `NewService`: empty usage and active-user tables. -/
def newService : Service :=
  { userUsage := fun _ => none, activeUsers := fun _ => none }

/-- `Service.GetActiveUserCount`: stored count, or 1/1 for an absent key. -/
def Service.getActiveUserCount (s : Service) (provider : Provider) (model : String) :
    ActiveUserCount :=
  match s.activeUsers (provider, model) with
  | none => { usersInRecentMinutes := 1, usersInRecentDays := 1 }
  | some count => count

/-- `Service.RecordUsage`: first observation initializes all five counters
from the call, later calls increment them; the active-user entry is created
at 1/1 and then stored back unchanged (the Go code never increments it). -/
def Service.recordUsage (s : Service) (userID : Nat) (provider : Provider)
    (model : String) (usage : TokenUsage) : Service :=
  let existing :=
    match s.userUsage userID with
    | none =>
        { userID := userID
          provider := provider
          model := model
          requestsThisMinute := 1
          tokensThisMinute := usage.input + usage.output
          inputTokensThisMinute := usage.input
          outputTokensThisMinute := usage.output
          tokensThisDay := usage.input + usage.output : ModelUsage }
    | some e =>
        { e with
          requestsThisMinute := e.requestsThisMinute + 1
          tokensThisMinute := e.tokensThisMinute + (usage.input + usage.output)
          inputTokensThisMinute := e.inputTokensThisMinute + usage.input
          outputTokensThisMinute := e.outputTokensThisMinute + usage.output
          tokensThisDay := e.tokensThisDay + (usage.input + usage.output) }
  let modelKey := (provider, model)
  let activeCount :=
    match s.activeUsers modelKey with
    | none => { usersInRecentMinutes := 1, usersInRecentDays := 1 : ActiveUserCount }
    | some count => count
  { userUsage := fun k => if k = userID then some existing else s.userUsage k
    activeUsers := fun k => if k = modelKey then some activeCount else s.activeUsers k }

/-- `Service.GetModelUsage`: stored usage, or a zeroed record for an absent
user. -/
def Service.getModelUsage (s : Service) (userID : Nat) (provider : Provider)
    (model : String) : ModelUsage :=
  match s.userUsage userID with
  | none =>
      { userID := userID
        provider := provider
        model := model
        requestsThisMinute := 0
        tokensThisMinute := 0
        inputTokensThisMinute := 0
        outputTokensThisMinute := 0
        tokensThisDay := 0 }
  | some e => e

/-- `normalizeModelName`: longest catalog name that is a prefix of the
requested name, for the same provider; the requested name if none match. -/
def normalizeModelName (provider : Provider) (name : String) : String :=
  let best := defaultModels.foldl
    (fun (acc : String × Nat) m =>
      if m.provider == provider && name.startsWith m.name then
        if m.name.length > acc.2 then (m.name, m.name.length) else acc
      else acc)
    ("", 0)
  if best.1 ≠ "" then best.1 else name

/-- `MinAccountAgeDays` from service.go. -/
def minAccountAgeDays : Nat := 7

/-- `CompletionRequest` from service.go. -/
structure CompletionRequest where
  provider : Provider
  model : String
  providerRequest : String
  token : LLMToken
  countryCode : Option String
  currentSpending : Nat
  deriving Repr

/-- `callCopilotAPI` (service.go): fails when the Copilot API key is not
configured.  The JSON decode of the payload and the HTTP POST are I/O
outside the embedding; their failures are network/decode errors, never an
authorization error, which is all the claims about this function need. -/
def callCopilotAPI (config : Config) (providerRequest : String) : Except LLMError Unit :=
  if config.copilotAPIKey = "" then .error (.apiKeyNotConfigured "Copilot")
  else .ok ()

/-- `callOpenAIAPI` (service.go), abstracted like `callCopilotAPI`. -/
def callOpenAIAPI (config : Config) (providerRequest : String) : Except LLMError Unit :=
  if config.openAIAPIKey = "" then .error (.apiKeyNotConfigured "OpenAI")
  else .ok ()

/-- `callAnthropicAPI` (service.go): staff use the staff key when it is
configured, with fallback to the general key; fails when the chosen key is
empty.  The model-alias rewriting only touches the outgoing payload. -/
def callAnthropicAPI (config : Config) (providerRequest : String) (isStaff : Bool) :
    Except LLMError Unit :=
  let apiKey :=
    if isStaff ∧ config.anthropicStaffAPIKey ≠ "" then config.anthropicStaffAPIKey
    else config.anthropicAPIKey
  if apiKey = "" then .error (.apiKeyNotConfigured "Anthropic")
  else .ok ()

/-- `callGoogleAIAPI` (service.go), abstracted like `callCopilotAPI`. -/
def callGoogleAIAPI (config : Config) (providerRequest : String) : Except LLMError Unit :=
  if config.googleAIAPIKey = "" then .error (.apiKeyNotConfigured "Google AI")
  else .ok ()

/-- `Service.PerformCompletion`: the account-age gate first (skipped for
staff or subscribers), then model-name normalization, a usage/active-user
snapshot, `ValidateAccess`, and the provider switch.  The Go age condition
`time.Since(AccountCreatedAt).Hours()/24 < MinAccountAgeDays` is the exact
real comparison `elapsed < 7 days`; with whole-second account-creation
times (as built by `ValidateLLMToken`) it equals this integer comparison on
Unix seconds. -/
def Service.performCompletion (config : Config) (s : Service)
    (req : CompletionRequest) (now : Int) : Except LLMError Unit :=
  if now - req.token.accountCreatedAt < (minAccountAgeDays : Int) * 86400 ∧
      ¬ req.token.isStaff ∧ ¬ req.token.hasLLMSubscription then
    .error .accountTooYoung
  else
    let model := normalizeModelName req.provider req.model
    let usage := s.getModelUsage req.token.userID req.provider model
    let activeUsers := s.getActiveUserCount req.provider model
    match validateAccess config req.token req.countryCode req.provider model usage
        activeUsers req.currentSpending with
    | .error e => .error e
    | .ok _ =>
        if req.provider = providerCopilot then
          callCopilotAPI config req.providerRequest
        else if req.provider = providerOpenAI then
          callOpenAIAPI config req.providerRequest
        else if req.provider = providerAnthropic then
          callAnthropicAPI config req.providerRequest req.token.isStaff
        else if req.provider = providerGoogle then
          callGoogleAIAPI config req.providerRequest
        else
          .error .providerNotSupported

/-! ### Drivers used to state the usage-tracking claims -/

/-- Replay a list of `RecordUsage` calls `(userID, provider, model, usage)`
against a service. -/
def runRecordUsage (s : Service) : List (Nat × Provider × String × TokenUsage) → Service
  | [] => s
  | (uid, p, m, u) :: rest => runRecordUsage (s.recordUsage uid p m u) rest

/-- The service after `n` requests by one user were recorded via
`RecordUsage` (with zero observed token counts, to isolate the request
counter). -/
def recordedService (uid : Nat) (p : Provider) (m : String) : Nat → Service
  | 0 => newService
  | n + 1 => (recordedService uid p m n).recordUsage uid p m ⟨0, 0⟩

/-- The admission decision of the k-th request (1-indexed) of one user under
the driver stipulated by the rate-ceiling claim: each completed or attempted
request is recorded via `RecordUsage` before the next check, so the check
for request k sees the usage recorded for requests 1..k-1. -/
def nthRequestResult (uid : Nat) (p : Provider) (m : String)
    (activeUsers : ActiveUserCount) (k : Nat) : Except LLMError Unit :=
  checkRateLimit uid p m
    ((recordedService uid p m (k - 1)).getModelUsage uid p m) activeUsers

/-- Decidable equality for `Except` results, used to evaluate the embedded
functions on concrete inputs. -/
instance instDecidableEqExcept {ε α : Type} [DecidableEq ε] [DecidableEq α] :
    DecidableEq (Except ε α) := fun a b =>
  match a, b with
  | .ok x, .ok y =>
      if h : x = y then .isTrue (by rw [h]) else .isFalse (by simp [h])
  | .error e, .error f =>
      if h : e = f then .isTrue (by rw [h]) else .isFalse (by simp [h])
  | .ok _, .error _ => .isFalse (by simp)
  | .error _, .ok _ => .isFalse (by simp)

/-! ## Theorems -/

lemma refill_no_change (rb : RateBucket) (now : Int)
    (h : now - rb.lastRefill < rb.refillTimePerToken) : rb.refill now = rb := by
  unfold RateBucket.refill
  rw [if_neg (by omega)]

lemma refill_spec (rb : RateBucket) (now : Int)
    (he : rb.refillTimePerToken ≤ now - rb.lastRefill) :
    rb.refill now =
      { rb with
        tokenCount := min (rb.tokenCount + Int.tdiv (now - rb.lastRefill) rb.refillTimePerToken) rb.capacity
        lastRefill := rb.lastRefill +
          rb.refillTimePerToken * Int.tdiv (now - rb.lastRefill) rb.refillTimePerToken } := by
  obtain ⟨cap, tc, rtpt, lr⟩ := rb
  dsimp only [RateBucket.refill] at he ⊢
  rw [if_pos (by omega)]
  have hdm := Int.tdiv_add_tmod (now - lr) rtpt
  simp only [RateBucket.mk.injEq, eq_self_iff_true, true_and]
  constructor
  · split <;> omega
  · omega

lemma allow_at_lastRefill (rb : RateBucket) (h : 0 < rb.refillTimePerToken) :
    rb.allow rb.lastRefill =
      if 0 < rb.tokenCount then (true, { rb with tokenCount := rb.tokenCount - 1 })
      else (false, rb) := by
  unfold RateBucket.allow
  rw [refill_no_change rb rb.lastRefill (by omega)]

lemma allow_inv (rb : RateBucket) (now : Int) (h0 : 0 < rb.refillTimePerToken)
    (hcap : 0 < rb.capacity) (hl : 0 ≤ rb.tokenCount) (hu : rb.tokenCount ≤ rb.capacity) :
    0 ≤ (rb.allow now).2.tokenCount ∧ (rb.allow now).2.tokenCount ≤ (rb.allow now).2.capacity ∧
      (rb.allow now).2.capacity = rb.capacity ∧
      (rb.allow now).2.refillTimePerToken = rb.refillTimePerToken := by
  unfold RateBucket.allow
  rcases lt_or_le (now - rb.lastRefill) rb.refillTimePerToken with hlt | hge
  · rw [refill_no_change rb now hlt]
    dsimp only
    split <;> simp <;> omega
  · rw [refill_spec rb now hge]
    have hd : 0 ≤ Int.tdiv (now - rb.lastRefill) rb.refillTimePerToken :=
      Int.tdiv_nonneg (by omega) (by omega)
    dsimp only
    split <;> simp <;> omega

lemma allowRun_inv (ts : List Int) : ∀ (rb : RateBucket), 0 < rb.refillTimePerToken →
    0 < rb.capacity → 0 ≤ rb.tokenCount → rb.tokenCount ≤ rb.capacity →
    0 ≤ (rb.allowRun ts).2.tokenCount ∧ (rb.allowRun ts).2.tokenCount ≤ (rb.allowRun ts).2.capacity ∧
      (rb.allowRun ts).2.capacity = rb.capacity ∧
      (rb.allowRun ts).2.refillTimePerToken = rb.refillTimePerToken := by
  induction ts with
  | nil => intro rb h0 hc hl hu; exact ⟨hl, hu, rfl, rfl⟩
  | cons t ts ih =>
      intro rb h0 hc hl hu
      have hstep := allow_inv rb t h0 hc hl hu
      have hrec := ih (rb.allow t).2 (by omega) (by omega) (by omega) (by omega)
      unfold RateBucket.allowRun
      dsimp only
      constructor
      · omega
      constructor
      · omega
      constructor
      · omega
      · omega

lemma allowRun_replicate (n : Nat) : ∀ (rb : RateBucket), 0 < rb.refillTimePerToken →
    0 ≤ rb.tokenCount →
    rb.allowRun (List.replicate n rb.lastRefill) =
      (min n rb.tokenCount.toNat,
        { rb with tokenCount := rb.tokenCount - min (n : Int) rb.tokenCount }) := by
  induction n with
  | zero =>
      intro rb h0 hl
      show (0, rb) = _
      simp only [Prod.mk.injEq]
      constructor
      · omega
      · obtain ⟨cap, tc, rtpt, lr⟩ := rb
        simp only at hl
        simp [RateBucket.mk.injEq]
        omega
  | succ n ih =>
      intro rb h0 hl
      rw [List.replicate_succ]
      unfold RateBucket.allowRun
      rw [allow_at_lastRefill rb h0]
      rcases lt_or_le 0 rb.tokenCount with hpos | hz
      · rw [if_pos hpos]
        dsimp only
        have ih' := ih { rb with tokenCount := rb.tokenCount - 1 } (by simpa using h0)
          (by simp only; omega)
        dsimp only at ih'
        rw [ih']
        obtain ⟨cap, tc, rtpt, lr⟩ := rb
        simp only at hpos
        simp [Prod.mk.injEq, RateBucket.mk.injEq]
        all_goals omega
      · rw [if_neg (by omega)]
        dsimp only
        have ih' := ih rb h0 hl
        rw [ih']
        obtain ⟨cap, tc, rtpt, lr⟩ := rb
        simp only at hz hl
        simp [Prod.mk.injEq, RateBucket.mk.injEq]
        all_goals omega

lemma allow_period (cap tc rtpt l : Int) (h0 : 0 < rtpt) (hcap : 0 < cap) (htc : tc = 0) :
    RateBucket.allow ⟨cap, tc, rtpt, l⟩ (l + rtpt) =
      (true, ⟨cap, 0, rtpt, l + rtpt⟩) := by
  subst htc
  unfold RateBucket.allow
  rw [refill_spec ⟨cap, 0, rtpt, l⟩ (l + rtpt) (by simp)]
  have hd : Int.tdiv (l + rtpt - l) rtpt = 1 := by
    rw [show l + rtpt - l = rtpt by ring]
    exact Int.tdiv_self (by omega)
  dsimp only
  rw [hd]
  rw [if_pos (by simp; omega)]
  simp [RateBucket.mk.injEq]
  omega

lemma allowRun_periodic (cap rtpt : Int) (hcap : 0 < cap) (h0 : 0 < rtpt) :
    ∀ (k : Nat) (l : Int),
      RateBucket.allowRun ⟨cap, 0, rtpt, l⟩ (periodicTimes l rtpt k) =
        (k, ⟨cap, 0, rtpt, l + k * rtpt⟩) := by
  intro k
  induction k with
  | zero => intro l; simp [periodicTimes, RateBucket.allowRun]
  | succ k ih =>
      intro l
      unfold periodicTimes
      unfold RateBucket.allowRun
      rw [allow_period cap 0 rtpt l h0 hcap rfl]
      dsimp only
      rw [ih (l + rtpt)]
      simp [Prod.mk.injEq, RateBucket.mk.injEq]
      constructor <;> first | trivial | omega | ring

lemma allowRun_periodicTwice (cap rtpt : Int) (hcap : 0 < cap) (h0 : 0 < rtpt) :
    ∀ (k : Nat) (l : Int),
      RateBucket.allowRun ⟨cap, 0, rtpt, l⟩ (periodicTimesTwice l rtpt k) =
        (k, ⟨cap, 0, rtpt, l + k * rtpt⟩) := by
  intro k
  induction k with
  | zero => intro l; simp [periodicTimesTwice, RateBucket.allowRun]
  | succ k ih =>
      intro l
      unfold periodicTimesTwice
      unfold RateBucket.allowRun
      rw [allow_period cap 0 rtpt l h0 hcap rfl]
      dsimp only
      unfold RateBucket.allowRun
      have hrej : RateBucket.allow ⟨cap, 0, rtpt, l + rtpt⟩ (l + rtpt) =
          (false, ⟨cap, 0, rtpt, l + rtpt⟩) := by
        unfold RateBucket.allow
        rw [refill_no_change ⟨cap, 0, rtpt, l + rtpt⟩ (l + rtpt) (by simp; omega)]
        simp
      rw [hrej]
      dsimp only
      rw [ih (l + rtpt)]
      simp [Prod.mk.injEq, RateBucket.mk.injEq]
      constructor <;> first | trivial | omega | ring

/-- Claim C4: a freshly created bucket with capacity C and window W (with
0 < C and a positive per-token refill time W/C) admits exactly C of any
number of calls at the creation timestamp; refill adds
floor(elapsed / refillTimePerToken) tokens clamped to capacity while
advancing lastRefill by exactly the consumed whole multiples of
refillTimePerToken, preserving the remainder; and once drained, exactly
one additional call is admitted per elapsed W/C (a duplicate call at the
same period boundary is rejected). -/
theorem rateBucket_capacity_and_refill (C W : Int) (nm : String) (t0 : Int)
    (hC : 0 < C) (hrt : 0 < Int.tdiv W C) :
    (∀ n : Nat,
      ((freshBucket (newBasicRateLimit C W nm) t0).allowRun (List.replicate n t0)).1 =
        min n C.toNat) ∧
    (∀ (rb : RateBucket) (now : Int), 0 < rb.refillTimePerToken →
      rb.refillTimePerToken ≤ now - rb.lastRefill →
      (rb.refill now).tokenCount =
        min (rb.tokenCount + Int.tdiv (now - rb.lastRefill) rb.refillTimePerToken) rb.capacity ∧
      (rb.refill now).lastRefill =
        rb.lastRefill + rb.refillTimePerToken * Int.tdiv (now - rb.lastRefill) rb.refillTimePerToken) ∧
    (∀ k : Nat,
      (((freshBucket (newBasicRateLimit C W nm) t0).allowRun (List.replicate C.toNat t0)).2.allowRun
        (periodicTimes t0 (Int.tdiv W C) k)).1 = k ∧
      (((freshBucket (newBasicRateLimit C W nm) t0).allowRun (List.replicate C.toNat t0)).2.allowRun
        (periodicTimesTwice t0 (Int.tdiv W C) k)).1 = k) := by
  have hfresh : freshBucket (newBasicRateLimit C W nm) t0 =
      ⟨C, C, Int.tdiv W C, t0⟩ := rfl
  have hdrain : ((freshBucket (newBasicRateLimit C W nm) t0).allowRun
      (List.replicate C.toNat t0)).2 = ⟨C, 0, Int.tdiv W C, t0⟩ := by
    rw [hfresh, allowRun_replicate C.toNat ⟨C, C, Int.tdiv W C, t0⟩ (by simpa using hrt) (by simp; omega)]
    simp [RateBucket.mk.injEq]
  refine ⟨?_, ?_, ?_⟩
  · intro n
    rw [hfresh, allowRun_replicate n ⟨C, C, Int.tdiv W C, t0⟩ (by simpa using hrt) (by simp; omega)]
  · intro rb now h0 he
    rw [refill_spec rb now he]
    exact ⟨rfl, rfl⟩
  · intro k
    rw [hdrain]
    rw [allowRun_periodic C (Int.tdiv W C) hC hrt k t0]
    rw [allowRun_periodicTwice C (Int.tdiv W C) hC hrt k t0]
    exact ⟨rfl, rfl⟩

/-- Witness for claim C4 at the concrete stream-requests limit of the
application (capacity 4, one minute window): 6 instant calls admit
exactly 4. -/
theorem rateBucket_capacity_and_refill_witness :
    ((freshBucket (newBasicRateLimit 4 60000000000 "stream-requests") 0).allowRun
      (List.replicate 6 0)).1 = min 6 (4 : Int).toNat :=
  (rateBucket_capacity_and_refill 4 60000000000 "stream-requests" 0 (by decide) (by decide)).1 6

/-- Counterexample to claim C5 as stated.  A bucket created by Check from
NewBasicRateLimit(10, -20ns, ...) has positive capacity 10 and per-token
refill time -2ns; after its 10 instant admissions, an Allow call 5ns later
computes 5 tdiv -2 = -2 refill tokens and leaves tokenCount = -2, violating
0 ≤ tokenCount. -/
theorem rateBucket_tokenCount_negative :
    0 < (freshBucket (newBasicRateLimit 10 (-20) "negative-window") 0).capacity ∧
    ((((freshBucket (newBasicRateLimit 10 (-20) "negative-window") 0).allowRun
        (List.replicate 10 0)).2).allow 5).2.tokenCount = -2 := by
  exact ⟨by decide, by decide⟩

/-- Claim C5 (amended): for every bucket with positive capacity and
positive per-token refill time whose token count starts within
[0, capacity], 0 ≤ tokenCount ≤ capacity holds after any sequence of
admission checks at arbitrary timestamps. -/
theorem rateBucket_invariant (rb : RateBucket) (ts : List Int)
    (hcap : 0 < rb.capacity) (hrt : 0 < rb.refillTimePerToken)
    (hl : 0 ≤ rb.tokenCount) (hu : rb.tokenCount ≤ rb.capacity) :
    0 ≤ (rb.allowRun ts).2.tokenCount ∧
      (rb.allowRun ts).2.tokenCount ≤ (rb.allowRun ts).2.capacity := by
  have h := allowRun_inv ts rb hrt hcap hl hu
  exact ⟨h.1, h.2.1⟩

/-- Witness for the amended claim C5 on the concrete stream-requests
bucket and a concrete timestamp sequence. -/
theorem rateBucket_invariant_witness :
    0 ≤ ((freshBucket (newBasicRateLimit 4 60000000000 "stream-requests") 0).allowRun
        [0, 0, 0, 0, 0, 7500000000, 15000000000]).2.tokenCount ∧
      ((freshBucket (newBasicRateLimit 4 60000000000 "stream-requests") 0).allowRun
        [0, 0, 0, 0, 0, 7500000000, 15000000000]).2.tokenCount ≤
        ((freshBucket (newBasicRateLimit 4 60000000000 "stream-requests") 0).allowRun
        [0, 0, 0, 0, 0, 7500000000, 15000000000]).2.capacity :=
  rateBucket_invariant (freshBucket (newBasicRateLimit 4 60000000000 "stream-requests") 0)
    [0, 0, 0, 0, 0, 7500000000, 15000000000] (by decide) (by decide) (by decide) (by decide)

/-- Counterexample to claim C6 as stated.  On the bucket built from
NewBasicRateLimit(10, -20ns, ...) and drained at time 0, the Allow call at
time 5 returns admit = false yet changes both tokenCount (0 to -2) and
lastRefill (0 to 4). -/
theorem rateBucket_reject_mutates :
    ((((freshBucket (newBasicRateLimit 10 (-20) "negative-window") 0).allowRun
        (List.replicate 10 0)).2).allow 5).1 = false ∧
    ((((freshBucket (newBasicRateLimit 10 (-20) "negative-window") 0).allowRun
        (List.replicate 10 0)).2).allow 5).2 ≠
      (((freshBucket (newBasicRateLimit 10 (-20) "negative-window") 0).allowRun
        (List.replicate 10 0)).2) := by
  exact ⟨by decide, by decide⟩

/-- Claim C6 (amended): for a bucket with positive capacity, positive
per-token refill time and non-negative token count, a rejected admission
check leaves the bucket exactly unchanged, and contrapositively any change
of a bucket field implies the call returned admit = true. -/
theorem rateBucket_reject_frame (rb : RateBucket) (now : Int)
    (hcap : 0 < rb.capacity) (hrt : 0 < rb.refillTimePerToken) (hl : 0 ≤ rb.tokenCount) :
    ((rb.allow now).1 = false → (rb.allow now).2 = rb) ∧
    ((rb.allow now).2 ≠ rb → (rb.allow now).1 = true) := by
  have main : (rb.allow now).1 = false → (rb.allow now).2 = rb := by
    intro hfalse
    rcases lt_or_le (now - rb.lastRefill) rb.refillTimePerToken with hlt | hge
    · unfold RateBucket.allow at hfalse ⊢
      rw [refill_no_change rb now hlt] at hfalse ⊢
      dsimp only at hfalse ⊢
      by_cases hpos : rb.tokenCount > 0
      · rw [if_pos hpos] at hfalse
        simp at hfalse
      · rw [if_neg hpos]
    · exfalso
      unfold RateBucket.allow at hfalse
      rw [refill_spec rb now hge] at hfalse
      have hd : 1 ≤ Int.tdiv (now - rb.lastRefill) rb.refillTimePerToken := by
        rw [Int.tdiv_eq_ediv (by omega) (by omega)]
        rw [Int.le_ediv_iff_mul_le hrt]
        omega
      dsimp only at hfalse
      rw [if_pos (by simp; omega)] at hfalse
      simp at hfalse
  refine ⟨main, ?_⟩
  intro hne
  rcases Bool.eq_false_or_eq_true (rb.allow now).1 with ht | hf
  · exact ht
  · exact absurd (main hf) hne

/-- Witness for the amended claim C6: a rejected call on a concrete
drained bucket leaves it unchanged. -/
theorem rateBucket_reject_frame_witness :
    (RateBucket.allow ⟨4, 0, 15000000000, 0⟩ 0).2 = (⟨4, 0, 15000000000, 0⟩ : RateBucket) :=
  (rateBucket_reject_frame ⟨4, 0, 15000000000, 0⟩ 0 (by decide) (by decide) (by decide)).1
    (by decide)

/-- Claim C7 evaluated against the code (the claim states the intended
behaviour, which the code does not implement): NewBasicRateLimit performs
no validation and constructs the capacity-0 spec as given, and the first
Check against that spec reaches the division refillDuration / capacity
with a zero divisor — a runtime panic (modelled as none) at request time
instead of a rejection at configuration time. -/
theorem newBasicRateLimit_rejects_nothing :
    newBasicRateLimit 0 60000000000 "stream-requests" =
      { capacity := 0, refillDuration := 60000000000, dbName := "stream-requests" } ∧
    newRateLimiter.check (newBasicRateLimit 0 60000000000 "stream-requests") 1 0 = none :=
  ⟨rfl, rfl⟩

/-- Counterexample to claim C2 as stated.  Validation of a freshly issued
token at a time strictly before its issued-at instant — which is a time
before the token's expiry — fails with ErrInvalidToken rather than
succeeding, because jwt/v4 claim validation also rejects tokens used before
they are issued (ErrTokenUsedBeforeIssued). -/
theorem validateLLMToken_rejects_before_issuance :
    (500 : Int) < 1000 + tokenLifetime ∧
    validateLLMToken
      (createLLMToken 1000 "jti-1" 42 "metrics-1" "octocat" 314159000 false true
        2000 (some 77) "s3cret")
      "s3cret" 500 = .error .invalidToken := by
  exact ⟨by decide, rfl⟩

/-- Claim C2 (amended): for every claim set and secret, validating a token
produced by CreateLLMToken with the same secret, at any time from the
token's issued-at instant (inclusive) up to its expiry (exclusive),
succeeds and returns an LLMToken whose fields equal the issued claim
fields exactly. -/
theorem createLLMToken_roundtrip (now : Int) (uuid : String) (userID : Nat)
    (metricsID githubLogin : String) (accountCreatedAt : Int) (isStaff hasSubscription : Bool)
    (maxMonthlySpend : Nat) (customAllowance : Option Nat) (secret : String) (now' : Int)
    (h1 : now ≤ now') (h2 : now' < now + tokenLifetime) :
    validateLLMToken
      (createLLMToken now uuid userID metricsID githubLogin accountCreatedAt isStaff
        hasSubscription maxMonthlySpend customAllowance secret) secret now' =
      .ok
        { iat := now
          exp := now + tokenLifetime
          jti := uuid
          userID := userID
          metricsID := metricsID
          githubUserLogin := githubLogin
          accountCreatedAt := accountCreatedAt
          isStaff := isStaff
          hasLLMSubscription := hasSubscription
          maxMonthlySpendInCents := maxMonthlySpend
          customMonthlyAllowanceInCents := customAllowance } := by
  unfold createLLMToken validateLLMToken
  dsimp only
  rw [if_neg (by omega)]
  rw [if_neg (by simp; omega)]

/-- Witness for the amended claim C2 at a concrete claim set, secret and
validation time. -/
theorem createLLMToken_roundtrip_witness :
    validateLLMToken
      (createLLMToken 1000 "jti-1" 42 "metrics-1" "octocat" 314159000 false true
        2000 (some 77) "s3cret") "s3cret" 2000 =
      .ok
        { iat := 1000
          exp := 1000 + tokenLifetime
          jti := "jti-1"
          userID := 42
          metricsID := "metrics-1"
          githubUserLogin := "octocat"
          accountCreatedAt := 314159000
          isStaff := false
          hasLLMSubscription := true
          maxMonthlySpendInCents := 2000
          customMonthlyAllowanceInCents := some 77 } :=
  createLLMToken_roundtrip 1000 "jti-1" 42 "metrics-1" "octocat" 314159000 false true
    2000 (some 77) "s3cret" 2000 (by decide) (by decide)

/-- Claim C3: ValidateLLMToken fails with the distinct error TokenExpired
exactly when the token parses and the current time has reached its embedded
expiry (inclusive expiry, taking priority over any simultaneous signature
failure, as jwt/v4 reports the expired bit first), fails with TokenInvalid
on every other validation failure (malformed structure, use before
issuance, bad signature, unsupported algorithm), and never produces any
other error kind; by the Except result type it returns no token value on
failure. -/
theorem validateLLMToken_error_taxonomy (t : JWTTokenString) (secret : String) (now : Int) :
    (∀ e : LLMError, validateLLMToken t secret now = .error e →
      e = .tokenExpired ∨ e = .invalidToken) ∧
    (validateLLMToken t secret now = .error .tokenExpired ↔
      ∃ (claims : TokenClaims) (alg : JWTAlg) (macKey : String),
        t = .signed claims alg macKey ∧ claims.exp ≤ now) := by
  cases t with
  | malformed raw =>
      refine ⟨?_, ?_⟩
      · intro e he
        simp [validateLLMToken] at he
        exact Or.inr he.symm
      · simp [validateLLMToken]
  | signed claims alg macKey =>
      refine ⟨?_, ?_⟩
      · intro e he
        unfold validateLLMToken at he
        dsimp only at he
        split_ifs at he with hexp hbad
        · exact Or.inl (by simpa using he.symm)
        · exact Or.inr (by simpa using he.symm)
      · unfold validateLLMToken
        dsimp only
        split_ifs with hexp hbad <;> simp <;> omega

/-- Witness for claim C3: a well-formed HS256 token verified with the right
secret at its exact expiry instant yields TokenExpired. -/
theorem validateLLMToken_error_taxonomy_witness :
    validateLLMToken
      (.signed ⟨1000, 500, "jti-2", 1, "m", "g", 0, false, false, 0, none⟩ .hs256 "key")
      "key" 1000 = .error .tokenExpired :=
  (validateLLMToken_error_taxonomy
      (.signed ⟨1000, 500, "jti-2", 1, "m", "g", 0, false, false, 0, none⟩ .hs256 "key")
      "key" 1000).2.mpr
    ⟨⟨1000, 500, "jti-2", 1, "m", "g", 0, false, false, 0, none⟩, .hs256, "key", rfl, by decide⟩

/-- Claim C8: the spend check passes unconditionally for a staff token;
for a non-staff token the effective allowance is the custom allowance when
present and the configured default otherwise, the check passes iff spend is
under the allowance or the token has an active subscription with
spend - allowance under its max monthly spend, and every failure is
SpendingLimitReached. -/
theorem checkSpendingLimit_spec (config : Config) (token : LLMToken) (spend : Nat) :
    (token.isStaff = true → checkSpendingLimit config token spend = .ok ()) ∧
    (token.isStaff = false →
      ((checkSpendingLimit config token spend = .ok () ↔
          spend < token.customMonthlyAllowanceInCents.getD config.freeTierMonthlyAllowance ∨
            (token.hasLLMSubscription = true ∧
              spend - token.customMonthlyAllowanceInCents.getD config.freeTierMonthlyAllowance <
                token.maxMonthlySpendInCents)) ∧
        (checkSpendingLimit config token spend = .ok () ∨
          checkSpendingLimit config token spend = .error .spendingLimitReached))) := by
  unfold checkSpendingLimit
  rcases hstaff : token.isStaff with _ | _
  · refine ⟨fun h => by simp [hstaff] at h, ?_⟩
    intro _
    rcases hcust : token.customMonthlyAllowanceInCents with _ | allowance <;>
      rcases hsub : token.hasLLMSubscription with _ | _ <;>
        simp [hstaff, hcust, hsub] <;>
          first
          | omega
          | (split_ifs <;> simp_all <;> omega)
  · exact ⟨fun _ => by simp [hstaff], fun hfalse => by simp [hstaff] at hfalse⟩

/-- Witness for claim C8: a concrete subscribed non-staff token over its
allowance but within its max monthly spend passes. -/
theorem checkSpendingLimit_spec_witness :
    checkSpendingLimit ⟨"", "", "", "", "", "", 1000, 1000⟩
      ⟨0, 3600, "jti-3", 1, "m", "g", 0, false, true, 500, none⟩ 1200 = .ok () :=
  ((checkSpendingLimit_spec ⟨"", "", "", "", "", "", 1000, 1000⟩
      ⟨0, 3600, "jti-3", 1, "m", "g", 0, false, true, 500, none⟩ 1200).2 rfl).1.mpr
    (Or.inr ⟨rfl, by decide⟩)

lemma checkRateLimit_copilot_ok_iff (uid : Nat) (usage : ModelUsage) (active : ActiveUserCount) :
    checkRateLimit uid providerCopilot "copilot-chat" usage active = .ok () ↔
      (usage.requestsThisMinute ≤
          25 / (if active.usersInRecentMinutes < 1 then 1 else active.usersInRecentMinutes) ∧
        usage.tokensThisMinute ≤
          5000 / (if active.usersInRecentMinutes < 1 then 1 else active.usersInRecentMinutes) ∧
        usage.inputTokensThisMinute ≤
          2500 / (if active.usersInRecentMinutes < 1 then 1 else active.usersInRecentMinutes) ∧
        usage.outputTokensThisMinute ≤
          2500 / (if active.usersInRecentMinutes < 1 then 1 else active.usersInRecentMinutes) ∧
        usage.tokensThisDay ≤
          100000 / (if active.usersInRecentDays < 1 then 1 else active.usersInRecentDays)) := by
  have hfind : defaultModels.find?
      (fun m => m.provider == providerCopilot && m.name == "copilot-chat") =
      some { id := "copilot-chat", name := "copilot-chat", provider := providerCopilot
             maxRequestsPerMinute := 25, maxTokensPerMinute := 5000
             maxInputTokensPerMinute := 2500, maxOutputTokensPerMinute := 2500
             maxTokensPerDay := 100000, enabled := true } := by rfl
  unfold checkRateLimit
  rw [hfind]
  dsimp only
  constructor
  · intro h
    split_ifs at h <;> simp_all <;> omega
  · intro h
    split_ifs <;> simp_all <;> omega

/-- Counterexample to claim C1 as stated.  Under the claim's own driver
(each completed or attempted request is recorded via `RecordUsage` before
the next check), the check for the 6th request sees a counter of 5, and
`CheckRateLimit` compares with a strict `>`, so with 5 active users and the
copilot-chat ceiling of 25 requests/minute the 6th request is still
admitted, not rejected; likewise with 1 active user the 26th request is
still admitted. -/
theorem sixthRequest_admitted :
    nthRequestResult 1 providerCopilot "copilot-chat" ⟨5, 5⟩ 6 = .ok () ∧
    nthRequestResult 1 providerCopilot "copilot-chat" ⟨1, 1⟩ 26 = .ok () := by
  exact ⟨by decide, by decide⟩

/-- Claim C1 (amended): per-user rate ceilings are the catalog ceilings
divided by the clamped active-user counts, and a request is admitted iff no
usage counter strictly exceeds its scaled ceiling; under the stipulated
driver (usage recorded after each completed or attempted request, before
the next check) the first rejected request is therefore the one after
ceiling + 1: with 5 active users requests 1..6 pass and request 7 fails
with RateLimitExceeded, and with 1 active user requests 1..26 pass and
request 27 fails. -/
theorem checkRateLimit_scaled_ceilings :
    (∀ (uid : Nat) (usage : ModelUsage) (active : ActiveUserCount),
      checkRateLimit uid providerCopilot "copilot-chat" usage active = .ok () ↔
        (usage.requestsThisMinute ≤
            25 / (if active.usersInRecentMinutes < 1 then 1 else active.usersInRecentMinutes) ∧
          usage.tokensThisMinute ≤
            5000 / (if active.usersInRecentMinutes < 1 then 1 else active.usersInRecentMinutes) ∧
          usage.inputTokensThisMinute ≤
            2500 / (if active.usersInRecentMinutes < 1 then 1 else active.usersInRecentMinutes) ∧
          usage.outputTokensThisMinute ≤
            2500 / (if active.usersInRecentMinutes < 1 then 1 else active.usersInRecentMinutes) ∧
          usage.tokensThisDay ≤
            100000 / (if active.usersInRecentDays < 1 then 1 else active.usersInRecentDays))) ∧
    (∀ k : Fin 6, nthRequestResult 1 providerCopilot "copilot-chat" ⟨5, 5⟩ (k.1 + 1) = .ok ()) ∧
    nthRequestResult 1 providerCopilot "copilot-chat" ⟨5, 5⟩ 7 =
      .error (.rateLimitExceeded "requests_per_minute") ∧
    (∀ k : Fin 26, nthRequestResult 1 providerCopilot "copilot-chat" ⟨1, 1⟩ (k.1 + 1) = .ok ()) ∧
    nthRequestResult 1 providerCopilot "copilot-chat" ⟨1, 1⟩ 27 =
      .error (.rateLimitExceeded "requests_per_minute") := by
  refine ⟨checkRateLimit_copilot_ok_iff, by decide, by decide, by decide, by decide⟩

lemma runRecordUsage_active_inv (events : List (Nat × Provider × String × TokenUsage)) :
    ∀ (s : Service),
      (∀ k, s.activeUsers k = none ∨ s.activeUsers k = some ⟨1, 1⟩) →
      ∀ k, (runRecordUsage s events).activeUsers k = none ∨
        (runRecordUsage s events).activeUsers k = some ⟨1, 1⟩ := by
  induction events with
  | nil => intro s hs; exact hs
  | cons e rest ih =>
      obtain ⟨uid, p, m, u⟩ := e
      intro s hs
      apply ih
      intro k
      unfold Service.recordUsage
      dsimp only
      by_cases hk : k = (p, m)
      · subst hk
        rw [if_pos rfl]
        rcases hs (p, m) with h | h <;> rw [h] <;> simp
      · rw [if_neg hk]
        exact hs k

/-- Claim C9: for every sequence of RecordUsage calls on a fresh service,
GetActiveUserCount returns 1/1 for every provider and model (RecordUsage
never raises either count above its initial value 1, and absent entries
are reported as 1/1); consequently the rate check against that count
admits exactly up to the full catalog ceilings (shown for copilot-chat). -/
theorem recordUsage_never_raises_active_users
    (events : List (Nat × Provider × String × TokenUsage)) (p : Provider) (m : String) :
    (runRecordUsage newService events).getActiveUserCount p m = ⟨1, 1⟩ ∧
    (∀ (uid : Nat) (usage : ModelUsage),
      checkRateLimit uid providerCopilot "copilot-chat" usage
          ((runRecordUsage newService events).getActiveUserCount p m) = .ok () ↔
        usage.requestsThisMinute ≤ 25 ∧ usage.tokensThisMinute ≤ 5000 ∧
        usage.inputTokensThisMinute ≤ 2500 ∧ usage.outputTokensThisMinute ≤ 2500 ∧
        usage.tokensThisDay ≤ 100000) := by
  have hcount : (runRecordUsage newService events).getActiveUserCount p m = ⟨1, 1⟩ := by
    unfold Service.getActiveUserCount
    rcases runRecordUsage_active_inv events newService (fun k => Or.inl rfl) (p, m) with h | h <;>
      rw [h]
  refine ⟨hcount, ?_⟩
  intro uid usage
  rw [hcount, checkRateLimit_copilot_ok_iff]
  norm_num

lemma authorizeAccessForCountry_error_ne (cc : Option String) (p : Provider) (e : LLMError)
    (h : authorizeAccessForCountry cc p = .error e) : e ≠ .accountTooYoung := by
  unfold authorizeAccessForCountry at h
  cases cc with
  | none =>
      simp at h
      subst h
      simp
  | some code =>
      dsimp only at h
      split_ifs at h <;> simp at h <;> subst h <;> simp

lemma authorizeAccessToModel_error_ne (config : Config) (token : LLMToken) (p : Provider)
    (mn : String) (e : LLMError) (h : authorizeAccessToModel config token p mn = .error e) :
    e ≠ .accountTooYoung := by
  unfold authorizeAccessToModel at h
  split_ifs at h <;> simp at h <;> subst h <;> simp

lemma checkSpendingLimit_error_ne (config : Config) (token : LLMToken) (spend : Nat)
    (e : LLMError) (h : checkSpendingLimit config token spend = .error e) :
    e ≠ .accountTooYoung := by
  unfold checkSpendingLimit at h
  rcases token.customMonthlyAllowanceInCents with _ | allowance <;>
    dsimp only at h <;> split_ifs at h <;> simp at h <;> subst h <;> simp

lemma checkRateLimit_error_ne (uid : Nat) (p : Provider) (mn : String) (usage : ModelUsage)
    (au : ActiveUserCount) (e : LLMError) (h : checkRateLimit uid p mn usage au = .error e) :
    e ≠ .accountTooYoung := by
  unfold checkRateLimit at h
  cases hf : defaultModels.find? (fun m => m.provider == p && m.name == mn) with
  | none =>
      rw [hf] at h
      simp at h
      subst h
      simp
  | some model =>
      rw [hf] at h
      dsimp only at h
      split_ifs at h <;> simp at h <;> subst h <;> simp

lemma validateAccess_error_ne (config : Config) (token : LLMToken) (cc : Option String)
    (p : Provider) (mn : String) (usage : ModelUsage) (au : ActiveUserCount) (spend : Nat)
    (e : LLMError) (h : validateAccess config token cc p mn usage au spend = .error e) :
    e ≠ .accountTooYoung := by
  unfold validateAccess at h
  cases h1 : authorizeAccessForCountry cc p with
  | error e1 =>
      rw [h1] at h
      dsimp only at h
      cases h
      exact authorizeAccessForCountry_error_ne cc p e h1
  | ok u1 =>
      rw [h1] at h
      dsimp only at h
      cases h2 : authorizeAccessToModel config token p mn with
      | error e2 =>
          rw [h2] at h
          dsimp only at h
          cases h
          exact authorizeAccessToModel_error_ne config token p mn e h2
      | ok u2 =>
          rw [h2] at h
          dsimp only at h
          cases h3 : checkSpendingLimit config token spend with
          | error e3 =>
              rw [h3] at h
              dsimp only at h
              cases h
              exact checkSpendingLimit_error_ne config token spend e h3
          | ok u3 =>
              rw [h3] at h
              dsimp only at h
              exact checkRateLimit_error_ne token.userID p mn usage au e h

lemma keyCheck_error_ne (k prov : String) (e : LLMError)
    (h : (if k = "" then Except.error (LLMError.apiKeyNotConfigured prov)
        else Except.ok ()) = .error e) : e ≠ .accountTooYoung := by
  split_ifs at h <;> simp at h <;> subst h <;> simp

lemma callAPI_error_ne (config : Config) (pr : String) (isStaff : Bool) (e : LLMError) :
    (callCopilotAPI config pr = .error e → e ≠ .accountTooYoung) ∧
    (callOpenAIAPI config pr = .error e → e ≠ .accountTooYoung) ∧
    (callAnthropicAPI config pr isStaff = .error e → e ≠ .accountTooYoung) ∧
    (callGoogleAIAPI config pr = .error e → e ≠ .accountTooYoung) := by
  unfold callCopilotAPI callOpenAIAPI callAnthropicAPI callGoogleAIAPI
  refine ⟨?_, ?_, ?_, ?_⟩ <;>
    · intro h
      try dsimp only at h
      exact keyCheck_error_ne _ _ e h

/-- Claim C10: PerformCompletion rejects with AccountTooYoung exactly when
the account is younger than 7 days and the token is neither staff nor
subscribed; in particular staff or subscribed tokens are never rejected
for account age, and the gate fires before any authorization stage (the
equivalence holds for every country code, usage state and spending). -/
theorem performCompletion_account_age (config : Config) (s : Service)
    (req : CompletionRequest) (now : Int) :
    Service.performCompletion config s req now = .error .accountTooYoung ↔
      (now - req.token.accountCreatedAt < (minAccountAgeDays : Int) * 86400 ∧
        req.token.isStaff = false ∧ req.token.hasLLMSubscription = false) := by
  unfold Service.performCompletion
  by_cases hage : (now - req.token.accountCreatedAt < (minAccountAgeDays : Int) * 86400 ∧
      ¬ req.token.isStaff = true ∧ ¬ req.token.hasLLMSubscription = true)
  · rw [if_pos hage]
    constructor
    · intro _
      exact ⟨hage.1, by simpa using hage.2.1, by simpa using hage.2.2⟩
    · intro _
      rfl
  · rw [if_neg hage]
    constructor
    · intro h
      exfalso
      dsimp only at h
      cases hva : validateAccess config req.token req.countryCode req.provider
          (normalizeModelName req.provider req.model)
          (s.getModelUsage req.token.userID req.provider
            (normalizeModelName req.provider req.model))
          (s.getActiveUserCount req.provider (normalizeModelName req.provider req.model))
          req.currentSpending with
      | error e =>
          rw [hva] at h
          dsimp only at h
          cases h
          exact validateAccess_error_ne config req.token req.countryCode req.provider
            (normalizeModelName req.provider req.model) _ _ req.currentSpending
            .accountTooYoung hva rfl
      | ok u =>
          rw [hva] at h
          dsimp only at h
          split_ifs at h
          · exact (callAPI_error_ne config req.providerRequest req.token.isStaff
              .accountTooYoung).1 h rfl
          · exact (callAPI_error_ne config req.providerRequest req.token.isStaff
              .accountTooYoung).2.1 h rfl
          · exact (callAPI_error_ne config req.providerRequest req.token.isStaff
              .accountTooYoung).2.2.1 h rfl
          · exact (callAPI_error_ne config req.providerRequest req.token.isStaff
              .accountTooYoung).2.2.2 h rfl
          · simp at h
    · intro hcond
      exact absurd ⟨hcond.1, by simp [hcond.2.1], by simp [hcond.2.2]⟩ hage

/-- Witness for claim C10: a 1-day-old, non-staff, non-subscribed token is
rejected with AccountTooYoung on a concrete request. -/
theorem performCompletion_account_age_witness :
    Service.performCompletion ⟨"", "", "", "", "", "", 1000, 1000⟩ newService
      ⟨providerCopilot, "copilot-chat", "",
        ⟨0, 3600, "jti-4", 1, "m", "g", 0, false, false, 0, none⟩, some "DE", 0⟩ 86400 =
      .error .accountTooYoung :=
  (performCompletion_account_age ⟨"", "", "", "", "", "", 1000, 1000⟩ newService
      ⟨providerCopilot, "copilot-chat", "",
        ⟨0, 3600, "jti-4", 1, "m", "g", 0, false, false, 0, none⟩, some "DE", 0⟩ 86400).mpr
    ⟨by decide, rfl, rfl⟩
